import Mathlib

/-!
Shallow embedding of the `pcm_rust` crate (file `src/lib.rs`) and proofs about
its WAVE import/export code paths.

Modelling conventions:
* Machine integers are `Nat` (unsigned) or `Int` (signed); wrapping of a value
  into a `w`-bit field is explicit (`% 2^w`), matching release-mode Rust
  semantics for arithmetic that overflows before being written.
* Byte streams are `List Nat` (each element a byte value).
* Rust panics (`unimplemented!` and division by zero) are modelled by a
  distinguished `panic` outcome; fallible returns by an error outcome.
* `f32`/`f64`/`I24`/ADPCM sample payloads are never read or written by the
  code under verification (their codec paths panic), so those variants are
  modelled payload-free; only the variant identity matters to the code.
-/

/-- Errors of the crate (the variants `src/lib.rs` actually constructs). -/
inductive PCMError where
  | IoError : PCMError
  | WrongMagicNumber : PCMError
  | UnknownFormat : Nat → PCMError
  | UnknownBitsPerSample : Nat → PCMError
  | TooMuchData : Nat → PCMError
  | TooManyFrames : Nat → PCMError
  deriving DecidableEq, Repr

/-- `enum Sample` from `src/lib.rs`. -/
inductive Sample where
  | Unsigned8bits : Nat → Sample
  | Signed16bits : Int → Sample
  | Signed24bits : Sample
  | Signed32bits : Int → Sample
  | ImaADPCM : Sample
  | MicrosoftADPCM : Sample
  | Float : Sample
  | DoubleFloat : Sample
  deriving DecidableEq, Repr

/-- `struct PCMParameters`. -/
structure PCMParameters where
  sample_rate : Nat
  nb_channels : Nat
  sample_type : Sample
  deriving DecidableEq, Repr

/-- `struct LoopInfo`. -/
structure LoopInfo where
  loop_start : Nat
  loop_end : Nat
  deriving DecidableEq, Repr

/-- `struct Frame`. -/
structure Frame where
  samples : List Sample
  deriving DecidableEq, Repr

/-- `struct PCM`. -/
structure PCM where
  parameters : PCMParameters
  loop_info : Option (List LoopInfo)
  frames : List Frame
  deriving DecidableEq, Repr

/-- Variant discriminant of a `Sample`; two samples are the same enum variant
iff their tags agree. -/
def Sample.tag : Sample → Nat
  | .Unsigned8bits _ => 0
  | .Signed16bits _ => 1
  | .Signed24bits => 2
  | .Signed32bits _ => 3
  | .ImaADPCM => 4
  | .MicrosoftADPCM => 5
  | .Float => 6
  | .DoubleFloat => 7

/-- `Sample::get_binary_size` (bits per sample). -/
def Sample.get_binary_size : Sample → Nat
  | .Unsigned8bits _ => 8
  | .Signed16bits _ => 16
  | .Signed24bits => 24
  | .Signed32bits _ => 32
  | .MicrosoftADPCM => 4
  | .Float => 32
  | .DoubleFloat => 64
  | .ImaADPCM => 4

/-- `Sample::get_best_wave_format`. -/
def Sample.get_best_wave_format : Sample → Nat
  | .Unsigned8bits _ => 1
  | .Signed16bits _ => 1
  | .Signed24bits => 1
  | .Signed32bits _ => 1
  | .MicrosoftADPCM => 2
  | .Float => 3
  | .DoubleFloat => 3
  | .ImaADPCM => 17

/-- `Sample::get_wave_format_chunk_extra_size`. -/
def Sample.get_wave_format_chunk_extra_size : Sample → Nat
  | .Unsigned8bits _ => 0
  | .Signed16bits _ => 0
  | .Signed24bits => 0
  | .Signed32bits _ => 0
  | .MicrosoftADPCM => 34
  | .Float => 0
  | .DoubleFloat => 0
  | .ImaADPCM => 4

/-- `Sample::from_wave_format_bps`. The Rust `match` on integer scrutinees is
an equality cascade, rendered here as an `if` chain. -/
def Sample.from_wave_format_bps (format bits_per_sample : Nat) :
    Except PCMError Sample :=
  if format = 1 then
    -- Standard Integer PCM
    if bits_per_sample = 8 then .ok (.Unsigned8bits 0)
    else if bits_per_sample = 16 then .ok (.Signed16bits 0)
    else if bits_per_sample = 32 then .ok (.Signed32bits 0)
    else .error (.UnknownBitsPerSample bits_per_sample)
  else if format = 2 then
    -- Microsoft ADPCM: every bit width rejected
    .error (.UnknownBitsPerSample bits_per_sample)
  else if format = 3 then
    -- Float PCM
    if bits_per_sample = 32 then .ok .Float
    else if bits_per_sample = 64 then .ok .DoubleFloat
    else .error (.UnknownBitsPerSample bits_per_sample)
  else if format = 17 then
    -- IMA ADPCM: every bit width rejected
    .error (.UnknownBitsPerSample bits_per_sample)
  else .error (.UnknownFormat format)

/-- `Frame::get_audio_size` (bytes). -/
def Frame.get_audio_size (f : Frame) : Nat :=
  f.samples.length *
    (match f.samples.head? with
     | some s => s.get_binary_size / 8
     | none => 0)

/-- `PCM::get_audio_size` (bytes). -/
def PCM.get_audio_size (p : PCM) : Nat :=
  p.frames.length *
    (match p.frames.head? with
     | some f => f.get_audio_size
     | none => 0)

/-- Little-endian encoding of a 16-bit field (`write_le_to_u16`); values
outside the field wrap, as the byte extraction shows. -/
def u16le (v : Nat) : List Nat := [v % 256, v / 256 % 256]

/-- Little-endian encoding of a 32-bit field (`write_le_to_u32`). -/
def u32le (v : Nat) : List Nat :=
  [v % 256, v / 256 % 256, v / 65536 % 256, v / 16777216 % 256]

/-- Two's-complement 16-bit pattern of an `i16` value. -/
def u16ofI16 (v : Int) : Nat := (v % 65536).toNat

/-- Value of a 16-bit pattern read back as an `i16` (`read_le_to_i16`). -/
def i16ofU16 (u : Nat) : Int :=
  if u % 65536 < 32768 then ((u % 65536 : Nat) : Int)
  else ((u % 65536 : Nat) : Int) - 65536

/-- One sample's wire bytes (`PCM::export_raw_file` body for one sample):
`none` models the `unimplemented!` panic for unsupported variants. -/
def writeSample : Sample → Option (List Nat)
  | .Unsigned8bits v => some [v]
  | .Signed16bits v => some [u16ofI16 v % 256, u16ofI16 v / 256]
  | _ => none

/-- Bytes written for a list of samples, and whether the writer completed
without hitting the `unimplemented!` panic. -/
def writeSamples : List Sample → List Nat × Bool
  | [] => ([], true)
  | s :: rest =>
    match writeSample s with
    | none => ([], false)
    | some bs =>
      match writeSamples rest with
      | (r, ok) => (bs ++ r, ok)

/-- `PCM::export_raw_file`: frame-major, channel-minor byte output. -/
def writeFrames : List Frame → List Nat × Bool
  | [] => ([], true)
  | f :: rest =>
    match writeSamples f.samples with
    | (bs, true) =>
      match writeFrames rest with
      | (r, ok) => (bs ++ r, ok)
    | (bs, false) => (bs, false)

/-- Interior/total size of the `fact` chunk, from `export_wave_file`. -/
def factSizes (st : Sample) : Nat × Nat :=
  if st.get_best_wave_format = 1 then (0, 0) else (4, 12)

/-- RIFF chunk interior size as `export_wave_file` computes it:
`format_chunk_size_total + fact_chunk_size_total + data_chunk_size_total`. -/
def riffInterior (p : PCM) : Nat :=
  (16 + p.parameters.sample_type.get_wave_format_chunk_extra_size + 8) +
    (factSizes p.parameters.sample_type).2 + (p.get_audio_size + 8)

/-- The fixed header `export_wave_file` writes before any `fact` chunk:
RIFF tag, riff size, WAVE, `fmt `, fmt size, format code, channels, rate,
byte rate, block align, bits per sample. -/
def waveHeader (p : PCM) : List Nat :=
  [82, 73, 70, 70] ++ u32le (riffInterior p) ++ [87, 65, 86, 69] ++
    [102, 109, 116, 32] ++
    u32le (16 + p.parameters.sample_type.get_wave_format_chunk_extra_size) ++
    u16le p.parameters.sample_type.get_best_wave_format ++
    u16le p.parameters.nb_channels ++
    u32le p.parameters.sample_rate ++
    u32le (p.parameters.sample_rate * p.parameters.nb_channels *
      (p.parameters.sample_type.get_binary_size / 8)) ++
    u16le (p.parameters.nb_channels *
      (p.parameters.sample_type.get_binary_size / 8)) ++
    u16le p.parameters.sample_type.get_binary_size

/-- Outcome of a write call: success, early error return, or panic. -/
inductive WStatus where
  | ok : WStatus
  | err : PCMError → WStatus
  | panic : WStatus
  deriving DecidableEq, Repr

/-- Bytes written so far plus how the writer finished. -/
structure WResult where
  out : List Nat
  status : WStatus
  deriving DecidableEq, Repr

/-- Tail of the export: `data` tag, data size, raw samples. -/
def exportTail (pre : List Nat) (p : PCM) : WResult :=
  match writeFrames p.frames with
  | (raw, true) =>
    ⟨pre ++ [100, 97, 116, 97] ++ u32le p.get_audio_size ++ raw, .ok⟩
  | (raw, false) =>
    ⟨pre ++ [100, 97, 116, 97] ++ u32le p.get_audio_size ++ raw, .panic⟩

/-- `PCM::export_wave_file`. -/
def PCM.export_wave_file (p : PCM) : WResult :=
  if 4294967295 < p.get_audio_size then
    ⟨[], .err (.TooMuchData p.get_audio_size)⟩
  else if p.parameters.sample_type.get_wave_format_chunk_extra_size ≠ 0 then
    ⟨[], .panic⟩
  else if p.parameters.sample_type.get_best_wave_format ≠ 1 then
    if 4294967295 < p.frames.length then
      ⟨waveHeader p ++ [102, 97, 99, 116] ++ u32le 4,
        .err (.TooManyFrames p.frames.length)⟩
    else
      exportTail (waveHeader p ++ [102, 97, 99, 116] ++ u32le 4 ++
        u32le p.frames.length) p
  else exportTail (waveHeader p) p

/-- Read one byte from the stream (`read_to_u8`); `none` models the I/O
error on end of stream. -/
def readByte : List Nat → Option (Nat × List Nat)
  | [] => none
  | b :: r => some (b, r)

/-- `read_le_to_u16`. -/
def readU16le : List Nat → Option (Nat × List Nat)
  | b0 :: b1 :: r => some (b0 + 256 * b1, r)
  | _ => none

/-- `read_le_to_u32`. -/
def readU32le : List Nat → Option (Nat × List Nat)
  | b0 :: b1 :: b2 :: b3 :: r =>
    some (b0 + 256 * b1 + 65536 * b2 + 16777216 * b3, r)
  | _ => none

/-- `read_exact` into a buffer of `n` bytes. -/
def readBytes (n : Nat) (s : List Nat) : Option (List Nat × List Nat) :=
  if s.length < n then none else some (s.take n, s.drop n)

/-- The `magic_number` crate's `check_magic_number` for a 4-byte tag:
reads 4 bytes (I/O error when the stream is short) and compares. -/
def check_magic_number (expected s : List Nat) :
    Except PCMError (List Nat) :=
  match s with
  | a :: b :: c :: d :: r =>
    if [a, b, c, d] = expected then .ok r else .error .WrongMagicNumber
  | _ => .error .IoError

/-- Outcome of decoding one sample from the in-memory data cursor. -/
inductive SampRes where
  | ok : Sample → List Nat → SampRes
  | ioErr : SampRes
  | panic : SampRes
  deriving DecidableEq, Repr

/-- One iteration of the per-sample `match sample_type` in the import loop:
reads one sample of the resolved variant, or fails as the code does. -/
def readSample : Sample → List Nat → SampRes
  | .Unsigned8bits _, data =>
    match readByte data with
    | some (b, r) => .ok (.Unsigned8bits b) r
    | none => .ioErr
  | .Signed16bits _, data =>
    match readU16le data with
    | some (u, r) => .ok (.Signed16bits (i16ofU16 u)) r
    | none => .ioErr
  | _, _ => .panic

/-- Outcome of decoding the sample vector of one frame. -/
inductive ChRes where
  | ok : List Sample → List Nat → ChRes
  | ioErr : ChRes
  | panic : ChRes
  deriving DecidableEq, Repr

/-- The `for _ in 0..nb_channels` loop of the import: reads `n` samples. -/
def readChannels (st : Sample) : Nat → List Nat → ChRes
  | 0, data => .ok [] data
  | n + 1, data =>
    match readSample st data with
    | .ok s rest =>
      match readChannels st n rest with
      | .ok ss rest2 => .ok (s :: ss) rest2
      | .ioErr => .ioErr
      | .panic => .panic
    | .ioErr => .ioErr
    | .panic => .panic

/-- Outcome of the whole frame-decoding loop. `spin` marks non-termination
(reachable in the source only with a zero channel count, a state the import
never passes here because the capacity division panics first). -/
inductive DecodeRes where
  | ok : List Frame → DecodeRes
  | ioErr : DecodeRes
  | panic : DecodeRes
  | spin : DecodeRes
  deriving DecidableEq, Repr

/-- The `while cursor < data_end` loop of the import, fuelled: each
iteration decodes one frame of `ch` samples from the buffer. The caller
passes the buffer length as fuel; with `ch ≥ 1` every iteration consumes at
least one byte, so the fuel is never exhausted on reachable inputs. -/
def decodeLoop (st : Sample) (ch : Nat) : Nat → List Nat → DecodeRes
  | _, [] => .ok []
  | 0, _ :: _ => .spin
  | fuel + 1, b :: data =>
    match readChannels st ch (b :: data) with
    | .ok samples rest =>
      match decodeLoop st ch fuel rest with
      | .ok frames => .ok (⟨samples⟩ :: frames)
      | .ioErr => .ioErr
      | .panic => .panic
      | .spin => .spin
    | .ioErr => .ioErr
    | .panic => .panic

/-- Result of an import call: a value, an error return, a panic, or (never
reached from `import_wave_file`) non-termination. -/
inductive RResult where
  | ok : PCM → RResult
  | err : PCMError → RResult
  | panic : RResult
  | spin : RResult
  deriving DecidableEq, Repr

/-- `PCM::import_wave_file` from the `data` tag onward: reads the data
sub-chunk size's worth of bytes into a buffer, then runs the frame loop.
The `Vec::with_capacity` argument `(S / (bits_per_sample / 8)) / nb_channels`
is Rust integer division, which panics on a zero divisor; the two guards
below model exactly those two divisions. -/
def PCM.importData (sample_type : Sample) (nb_channels bits_per_sample
    sample_rate : Nat) (s : List Nat) : RResult :=
  match readU32le s with
  | none => .err .IoError
  | some (sub_chunk_2_size, s) =>
    match readBytes sub_chunk_2_size s with
    | none => .err .IoError
    | some (data, _) =>
      if bits_per_sample / 8 = 0 then .panic
      else if nb_channels = 0 then .panic
      else
        match decodeLoop sample_type nb_channels data.length data with
        | .ok frames =>
          .ok ⟨⟨sample_rate, nb_channels, sample_type⟩, none, frames⟩
        | .ioErr => .err .IoError
        | .panic => .panic
        | .spin => .spin

/-- `PCM::import_wave_file`. -/
def PCM.import_wave_file (s : List Nat) : RResult :=
  match check_magic_number [82, 73, 70, 70] s with
  | .error e => .err e
  | .ok s =>
    match readU32le s with
    | none => .err .IoError
    | some (_chunk_size, s) =>
      match check_magic_number [87, 65, 86, 69] s with
      | .error e => .err e
      | .ok s =>
        match check_magic_number [102, 109, 116, 32] s with
        | .error e => .err e
        | .ok s =>
          match readU32le s with
          | none => .err .IoError
          | some (_sub_chunk_1_size, s) =>
            match readU16le s with
            | none => .err .IoError
            | some (audio_format, s) =>
              if audio_format ≠ 1 then .panic
              else
                match readU16le s with
                | none => .err .IoError
                | some (nb_channels, s) =>
                  match readU32le s with
                  | none => .err .IoError
                  | some (sample_rate, s) =>
                    match readU32le s with
                    | none => .err .IoError
                    | some (_byte_rate, s) =>
                      match readU16le s with
                      | none => .err .IoError
                      | some (_block_align, s) =>
                        match readU16le s with
                        | none => .err .IoError
                        | some (bits_per_sample, s) =>
                          match Sample.from_wave_format_bps audio_format
                              bits_per_sample with
                          | .error e => .err e
                          | .ok sample_type =>
                            match check_magic_number [100, 97, 116, 97] s with
                            | .error e => .err e
                            | .ok s =>
                              PCM.importData sample_type nb_channels
                                bits_per_sample sample_rate s

/-! ## Helper lemmas shared by several claims -/

/-- Compatibility of a stored sample with the stream's sample type: same
enum variant, payload within the Rust type's range. Only the two variants
the raw codec implements are compatible with anything. -/
def sampleCompat (st s : Sample) : Prop :=
  match st, s with
  | .Unsigned8bits _, .Unsigned8bits v => v < 256
  | .Signed16bits _, .Signed16bits v => -32768 ≤ v ∧ v < 32768
  | _, _ => False

/-- The data-model invariant on a PCM's frames: every frame has exactly
`nb_channels` samples, all of the parameters' variant. -/
def PCM.framesWF (p : PCM) : Prop :=
  ∀ f ∈ p.frames, f.samples.length = p.parameters.nb_channels ∧
    ∀ s ∈ f.samples, s.tag = p.parameters.sample_type.tag

theorem tag_eq_binary_size {a b : Sample} (h : a.tag = b.tag) :
    a.get_binary_size = b.get_binary_size := by
  cases a <;> cases b <;>
    simp_all [Sample.tag, Sample.get_binary_size]

theorem sampleCompat_tag {st s : Sample} (h : sampleCompat st s) :
    s.tag = st.tag := by
  cases st <;> cases s <;> simp_all [sampleCompat, Sample.tag]

/-- Under the frame invariant, `PCM::get_audio_size` equals the spec's
formula `frame_count × nb_channels × (bits_per_sample / 8)`. -/
theorem audio_size_formula (p : PCM) (h : p.framesWF) :
    p.get_audio_size = p.frames.length *
      (p.parameters.nb_channels *
        (p.parameters.sample_type.get_binary_size / 8)) := by
  rcases hf : p.frames with _ | ⟨f, fs⟩
  · simp [PCM.get_audio_size, hf]
  · have hmem : f ∈ p.frames := by rw [hf]; exact List.mem_cons_self _ _
    obtain ⟨hlen, htags⟩ := h f hmem
    rcases hs : f.samples with _ | ⟨s, ss⟩
    · have : p.parameters.nb_channels = 0 := by rw [← hlen, hs]; rfl
      simp [PCM.get_audio_size, Frame.get_audio_size, hf, hs, this]
    · have hstag : s.tag = p.parameters.sample_type.tag :=
        htags s (by rw [hs]; exact List.mem_cons_self _ _)
      have hbin := tag_eq_binary_size hstag
      simp [PCM.get_audio_size, Frame.get_audio_size, hf, hs, ← hlen, hbin,
        Nat.mul_assoc]

theorem readU16le_u16le (v : Nat) (r : List Nat) :
    readU16le (u16le v ++ r) = some (v % 65536, r) := by
  simp only [u16le, List.cons_append, List.nil_append, readU16le,
    Option.some.injEq, Prod.mk.injEq, and_true]
  omega

theorem readU32le_u32le (v : Nat) (r : List Nat) :
    readU32le (u32le v ++ r) = some (v % 4294967296, r) := by
  simp only [u32le, List.cons_append, List.nil_append, readU32le,
    Option.some.injEq, Prod.mk.injEq, and_true]
  omega

theorem check_magic_self (a b c d : Nat) (r : List Nat) :
    check_magic_number [a, b, c, d] ([a, b, c, d] ++ r) = .ok r := by
  simp [check_magic_number]

theorem i16_round (v : Int) (h1 : -32768 ≤ v) (h2 : v < 32768) :
    i16ofU16 (u16ofI16 v) = v := by
  unfold i16ofU16 u16ofI16
  split <;> omega

/-- Wire bytes of one compatible sample, with their length and the fact that
the import-side sample decoder reads them back to the identical sample. -/
theorem sample_codec (st s : Sample) (h : sampleCompat st s) :
    ∃ bs, writeSample s = some bs ∧
      bs.length = st.get_binary_size / 8 ∧
      ∀ r, readSample st (bs ++ r) = .ok s r := by
  cases st <;> cases s <;> simp only [sampleCompat] at h
  case Unsigned8bits.Unsigned8bits w v =>
    exact ⟨[v], rfl, by simp [Sample.get_binary_size], fun r => rfl⟩
  case Signed16bits.Signed16bits w v =>
    refine ⟨[u16ofI16 v % 256, u16ofI16 v / 256], rfl,
      by simp [Sample.get_binary_size], fun r => ?_⟩
    have hrecomb : u16ofI16 v % 256 + 256 * (u16ofI16 v / 256) = u16ofI16 v := by
      omega
    simp [readSample, readU16le, hrecomb, i16_round v h.1 h.2]

/-- Encoding a compatible sample vector succeeds, its byte count is exact,
and the import-side channel loop reads the identical samples back. -/
theorem samples_codec (st : Sample) :
    ∀ ss : List Sample, (∀ s ∈ ss, sampleCompat st s) →
      ∃ bs, writeSamples ss = (bs, true) ∧
        bs.length = ss.length * (st.get_binary_size / 8) ∧
        ∀ r, readChannels st ss.length (bs ++ r) = .ok ss r := by
  intro ss
  induction ss with
  | nil => exact fun _ => ⟨[], rfl, by simp, fun r => rfl⟩
  | cons s rest ih =>
    intro h
    obtain ⟨sbs, hw, hlen, hread⟩ :=
      sample_codec st s (h s (List.mem_cons_self _ _))
    obtain ⟨bs, hws, hlens, hreads⟩ :=
      ih (fun x hx => h x (List.mem_cons_of_mem _ hx))
    refine ⟨sbs ++ bs, ?_, ?_, fun r => ?_⟩
    · simp [writeSamples, hw, hws]
    · simp [hlen, hlens, List.length_append, Nat.succ_mul, Nat.add_comm]
    · have : sbs ++ bs ++ r = sbs ++ (bs ++ r) := by simp
      rw [this]
      simp [readChannels, hread, hreads]

/-- The frame loop terminates immediately on an empty buffer, whatever the
fuel. -/
theorem decodeLoop_nil (st : Sample) (ch fuel : Nat) :
    decodeLoop st ch fuel [] = .ok [] := by
  cases fuel <;> rfl

/-- Encoding invariant-respecting frames succeeds, the byte count is exact,
and the import-side frame loop decodes the identical frames (with any fuel
at least the frame count). -/
theorem frames_codec (st : Sample) (ch : Nat) (hch : 1 ≤ ch)
    (hb : 1 ≤ st.get_binary_size / 8) :
    ∀ frames : List Frame,
      (∀ f ∈ frames, f.samples.length = ch ∧
        ∀ s ∈ f.samples, sampleCompat st s) →
      ∃ bs, writeFrames frames = (bs, true) ∧
        bs.length = frames.length * (ch * (st.get_binary_size / 8)) ∧
        ∀ fuel, frames.length ≤ fuel → decodeLoop st ch fuel bs = .ok frames := by
  intro frames
  induction frames with
  | nil => exact fun _ => ⟨[], rfl, by simp, fun fuel _ => decodeLoop_nil _ _ _⟩
  | cons f fs ih =>
    intro h
    obtain ⟨hflen, hfcompat⟩ := h f (List.mem_cons_self _ _)
    obtain ⟨fbs, hwf, hflenb, hfread⟩ := samples_codec st f.samples hfcompat
    obtain ⟨bs, hws, hlens, hdec⟩ :=
      ih (fun x hx => h x (List.mem_cons_of_mem _ hx))
    have hfbs_pos : 1 ≤ fbs.length := by
      rw [hflenb, hflen]
      simpa using Nat.mul_le_mul hch hb
    refine ⟨fbs ++ bs, ?_, ?_, ?_⟩
    · simp [writeFrames, hwf, hws]
    · simp [List.length_append, hflenb, hlens, hflen, Nat.succ_mul,
        Nat.add_comm]
    · intro fuel hfuel
      simp only [List.length_cons] at hfuel
      rcases fuel with _ | fuel
      · omega
      obtain ⟨b0, fbs0, rfl⟩ : ∃ b0 fbs0, fbs = b0 :: fbs0 := by
        rcases fbs with _ | ⟨b0, fbs0⟩
        · simp at hfbs_pos
        · exact ⟨b0, fbs0, rfl⟩
      have hread : readChannels st ch ((b0 :: fbs0) ++ bs) = .ok f.samples bs := by
        rw [← hflen]; exact hfread bs
      simp only [List.cons_append] at hread ⊢
      simp only [decodeLoop, hread, hdec fuel (by omega)]

/-- Unfolding of `PCM::import_wave_file` on a stream whose tags verify and
whose fmt chunk is fully present: the reads deliver the encoded fields
(reduced to their field widths) and control reaches the format guard, the
resolver, the `data` tag check and the data phase, in the source's order. -/
theorem import_parse (csz fsz fmtv ch rate br ba bps : Nat)
    (rest : List Nat) :
    PCM.import_wave_file ([82, 73, 70, 70] ++ u32le csz ++ [87, 65, 86, 69] ++
        [102, 109, 116, 32] ++ u32le fsz ++ u16le fmtv ++ u16le ch ++
        u32le rate ++ u32le br ++ u16le ba ++ u16le bps ++ rest) =
      if fmtv % 65536 ≠ 1 then .panic
      else
        match Sample.from_wave_format_bps (fmtv % 65536) (bps % 65536) with
        | .error e => .err e
        | .ok sample_type =>
          match check_magic_number [100, 97, 116, 97] rest with
          | .error e => .err e
          | .ok s =>
            PCM.importData sample_type (ch % 65536) (bps % 65536)
              (rate % 4294967296) s := by
  simp only [PCM.import_wave_file, List.append_assoc, check_magic_self,
    readU32le_u32le, readU16le_u16le]

/-! ## Claim theorems -/

/-- The concrete scenario of the spec: mono, 8000 Hz, 8-bit unsigned,
frames [10, 20, 30]. -/
def monoU8Pcm : PCM :=
  ⟨⟨8000, 1, .Unsigned8bits 0⟩, none,
    [⟨[.Unsigned8bits 10]⟩, ⟨[.Unsigned8bits 20]⟩, ⟨[.Unsigned8bits 30]⟩]⟩

/-- Claim C2 (code bug): exporting the mono 8000 Hz 8-bit PCM with frames
[10, 20, 30] writes the claimed byte sequence EXCEPT the RIFF chunk-size
field at offset 4, which the code computes as
`fmt_total (24) + fact_total (0) + data_total (11) = 35 = 32 + data_size`,
omitting the 4 bytes of the `WAVE` tag, where the claim (and the WAVE
container format) require `36 + data_size = 39`. -/
theorem c2_export_bytes :
    PCM.export_wave_file monoU8Pcm =
      ⟨[82, 73, 70, 70] ++ u32le 35 ++ [87, 65, 86, 69] ++
        [102, 109, 116, 32] ++ u32le 16 ++ u16le 1 ++ u16le 1 ++
        u32le 8000 ++ u32le 8000 ++ u16le 1 ++ u16le 8 ++
        [100, 97, 116, 97] ++ u32le 3 ++ [10, 20, 30], .ok⟩ ∧
      u32le 35 ≠ u32le (36 + 3) := by decide

/-- Input whose RIFF/WAVE/fmt tags verify and whose fmt chunk declares
format code 3 (IEEE float). -/
def fmt3Bytes : List Nat :=
  [82, 73, 70, 70] ++ u32le 0 ++ [87, 65, 86, 69] ++ [102, 109, 116, 32] ++
    u32le 16 ++ u16le 3 ++ u16le 1 ++ u32le 8000 ++ u32le 32000 ++
    u16le 4 ++ u16le 32 ++ [100, 97, 116, 97] ++ u32le 0

/-- Input whose tags verify and whose fmt chunk declares format code 5
(outside the resolver's table). -/
def fmt5Bytes : List Nat :=
  [82, 73, 70, 70] ++ u32le 0 ++ [87, 65, 86, 69] ++ [102, 109, 116, 32] ++
    u32le 16 ++ u16le 5 ++ u16le 1 ++ u32le 8000 ++ u32le 8000 ++
    u16le 1 ++ u16le 8 ++ [100, 97, 116, 97] ++ u32le 0

/-- Claim C3, counterexample: on a verified-tag stream declaring format 3
(and on one declaring format 5), `import_wave_file` terminates abnormally
(the `unimplemented!` guard fires before the resolver is ever consulted);
it neither continues the import with a Float variant nor returns
`UnknownFormat` as an error value. -/
theorem c3_counterexample :
    PCM.import_wave_file fmt3Bytes = .panic ∧
      PCM.import_wave_file fmt5Bytes = .panic := by decide

/-- Claim C3, amended: for every stream whose RIFF/WAVE/`fmt ` tags verify
and whose fmt chunk declares a format code other than 1, `import_wave_file`
panics immediately after reading the format code; the Format Resolver is
never invoked on such streams. -/
theorem c3_nonpcm_format_panics (csz fsz fmtv : Nat) (rest : List Nat)
    (h : fmtv % 65536 ≠ 1) :
    PCM.import_wave_file ([82, 73, 70, 70] ++ u32le csz ++
      [87, 65, 86, 69] ++ [102, 109, 116, 32] ++ u32le fsz ++
      u16le fmtv ++ rest) = .panic := by
  simp only [PCM.import_wave_file, List.append_assoc, check_magic_self,
    readU32le_u32le, readU16le_u16le]
  simp [h]

/-- Witness for the amended C3 theorem at format code 3. -/
theorem c3_nonpcm_format_panics_witness :
    PCM.import_wave_file ([82, 73, 70, 70] ++ u32le 0 ++ [87, 65, 86, 69] ++
      [102, 109, 116, 32] ++ u32le 16 ++ u16le 3 ++ []) = .panic :=
  c3_nonpcm_format_panics 0 16 3 [] (by decide)

/-- Claim C4 (confirmed): the Format Resolver is total — it is a function
returning a value for every input — and maps exactly the documented table:
format 1 with 8/16/32 bits to the integer variants, format 3 with 32/64
bits to the float variants, every other bit width of formats 1, 2, 3, 17
to `UnknownBitsPerSample`, and every other format code to
`UnknownFormat`. -/
theorem c4_resolver_total (format bps : Nat) :
    (format = 1 →
      (bps = 8 →
        Sample.from_wave_format_bps format bps = .ok (.Unsigned8bits 0)) ∧
      (bps = 16 →
        Sample.from_wave_format_bps format bps = .ok (.Signed16bits 0)) ∧
      (bps = 32 →
        Sample.from_wave_format_bps format bps = .ok (.Signed32bits 0)) ∧
      (bps ≠ 8 → bps ≠ 16 → bps ≠ 32 →
        Sample.from_wave_format_bps format bps =
          .error (.UnknownBitsPerSample bps))) ∧
    (format = 3 →
      (bps = 32 → Sample.from_wave_format_bps format bps = .ok .Float) ∧
      (bps = 64 → Sample.from_wave_format_bps format bps = .ok .DoubleFloat) ∧
      (bps ≠ 32 → bps ≠ 64 →
        Sample.from_wave_format_bps format bps =
          .error (.UnknownBitsPerSample bps))) ∧
    ((format = 2 ∨ format = 17) →
      Sample.from_wave_format_bps format bps =
        .error (.UnknownBitsPerSample bps)) ∧
    (format ≠ 1 → format ≠ 2 → format ≠ 3 → format ≠ 17 →
      Sample.from_wave_format_bps format bps =
        .error (.UnknownFormat format)) := by
  unfold Sample.from_wave_format_bps
  refine ⟨?_, ?_, ?_, ?_⟩
  · intro h1
    subst h1
    refine ⟨?_, ?_, ?_, ?_⟩ <;> intros <;> simp_all
  · intro h3
    subst h3
    refine ⟨?_, ?_, ?_⟩ <;> intros <;> simp_all
  · rintro (h | h) <;> subst h <;> simp
  · intros
    simp_all

/-- Witness for the resolver theorem: two rows of the table. -/
theorem c4_resolver_total_witness :
    Sample.from_wave_format_bps 1 8 = .ok (.Unsigned8bits 0) ∧
      Sample.from_wave_format_bps 5 4 = .error (.UnknownFormat 5) :=
  ⟨((c4_resolver_total 1 8).1 rfl).1 rfl,
    (c4_resolver_total 5 4).2.2.2 (by decide) (by decide) (by decide)
      (by decide)⟩

/-- Stream accepted up to the data chunk with a zero channel count:
format 1, 8 bits per sample, data size 0. -/
def zeroChannelBytes : List Nat :=
  [82, 73, 70, 70] ++ u32le 0 ++ [87, 65, 86, 69] ++ [102, 109, 116, 32] ++
    u32le 16 ++ u16le 1 ++ u16le 0 ++ u32le 8000 ++ u32le 0 ++ u16le 0 ++
    u16le 8 ++ [100, 97, 116, 97] ++ u32le 0

/-- Claim C10 (confirmed): on a stream accepted up to the data chunk whose
fmt chunk declares 0 channels with a resolvable format (1, 8 bits),
`import_wave_file` neither returns a PCM nor an error: the
`Vec::with_capacity` expression divides by the zero channel count and the
call terminates abnormally. -/
theorem c10_zero_channels_panics :
    PCM.import_wave_file zeroChannelBytes = .panic := by decide

/-- 16-bit mono stream whose data size 3 is not divisible by the frame
byte size 2: one whole frame plus one stray byte. -/
def oddSizeBytes : List Nat :=
  [82, 73, 70, 70] ++ u32le 39 ++ [87, 65, 86, 69] ++ [102, 109, 116, 32] ++
    u32le 16 ++ u16le 1 ++ u16le 1 ++ u32le 8000 ++ u32le 16000 ++
    u16le 2 ++ u16le 16 ++ [100, 97, 116, 97] ++ u32le 3 ++ [1, 2, 3]

/-- Claim C5, counterexample: on the 16-bit mono stream with data size 3,
`import_wave_file` does not return the whole frames with the partial frame
dropped — it returns `Err(IoError)` (the in-buffer read of the partial
frame hits end of buffer and the error propagates out of the import). -/
theorem c5_counterexample :
    PCM.import_wave_file oddSizeBytes = .err .IoError := by decide

/-- For the decodable variants, one sample read either consumes exactly the
sample's byte size or fails with the buffer exhausted. -/
theorem readSample_progress (st : Sample)
    (hst : (∃ v, st = .Unsigned8bits v) ∨ (∃ v, st = .Signed16bits v))
    (data : List Nat) :
    (∃ s rest, readSample st data = .ok s rest ∧
      data.length = st.get_binary_size / 8 + rest.length) ∨
    (readSample st data = .ioErr ∧
      data.length < st.get_binary_size / 8) := by
  rcases hst with ⟨v, rfl⟩ | ⟨v, rfl⟩
  · rcases data with _ | ⟨b0, d⟩
    · exact .inr ⟨rfl, by simp [Sample.get_binary_size]⟩
    · exact .inl ⟨.Unsigned8bits b0, d, rfl,
        by simp [Sample.get_binary_size, Nat.add_comm]⟩
  · rcases data with _ | ⟨b0, _ | ⟨b1, d⟩⟩
    · exact .inr ⟨rfl, by simp [Sample.get_binary_size]⟩
    · exact .inr ⟨rfl, by simp [Sample.get_binary_size]⟩
    · refine .inl ⟨.Signed16bits (i16ofU16 (b0 + 256 * b1)), d, rfl, ?_⟩
      simp only [List.length_cons, Sample.get_binary_size]
      omega

/-- The channel loop on a decodable variant either consumes exactly
`n × sample size` bytes or exhausts the buffer. -/
theorem readChannels_progress (st : Sample)
    (hst : (∃ v, st = .Unsigned8bits v) ∨ (∃ v, st = .Signed16bits v)) :
    ∀ (n : Nat) (data : List Nat),
      (∃ ss rest, readChannels st n data = .ok ss rest ∧
        data.length = n * (st.get_binary_size / 8) + rest.length) ∨
      (readChannels st n data = .ioErr ∧
        data.length < n * (st.get_binary_size / 8)) := by
  intro n
  induction n with
  | zero => intro data; exact .inl ⟨[], data, rfl, by simp⟩
  | succ n ih =>
    intro data
    rcases readSample_progress st hst data with
      ⟨s, rest, hok, hlen⟩ | ⟨herr, hlen⟩
    · rcases ih rest with ⟨ss, rest2, hok2, hlen2⟩ | ⟨herr2, hlen2⟩
      · refine .inl ⟨s :: ss, rest2, ?_, ?_⟩
        · simp [readChannels, hok, hok2]
        · rw [hlen, hlen2, Nat.succ_mul]
          ring
      · refine .inr ⟨?_, ?_⟩
        · simp [readChannels, hok, herr2]
        · rw [Nat.succ_mul]
          omega
    · refine .inr ⟨?_, ?_⟩
      · simp [readChannels, herr]
      · have hone : 1 * (st.get_binary_size / 8) ≤
            (n + 1) * (st.get_binary_size / 8) :=
          Nat.mul_le_mul_right _ (by omega)
        rw [Nat.one_mul] at hone
        omega

/-- When the buffer length is not a multiple of the frame byte size, the
frame loop fails with the buffer exhausted mid-frame. -/
theorem decodeLoop_indivisible (st : Sample)
    (hst : (∃ v, st = .Unsigned8bits v) ∨ (∃ v, st = .Signed16bits v))
    (ch : Nat) (hch : 1 ≤ ch) :
    ∀ (fuel : Nat) (data : List Nat), data.length ≤ fuel →
      data.length % (ch * (st.get_binary_size / 8)) ≠ 0 →
      decodeLoop st ch fuel data = .ioErr := by
  intro fuel
  induction fuel with
  | zero =>
    intro data hlen hmod
    rcases data with _ | _
    · simp at hmod
    · simp at hlen
  | succ fuel ih =>
    intro data hlen hmod
    rcases hd : data with _ | ⟨b, d⟩
    · rw [hd] at hmod; simp at hmod
    subst hd
    rcases readChannels_progress st hst ch (b :: d) with
      ⟨ss, rest, hok, hconsume⟩ | ⟨herr, _⟩
    · rw [hconsume, Nat.add_mod_left] at hmod
      have hpos : 1 ≤ ch * (st.get_binary_size / 8) := by
        rcases hst with ⟨v, rfl⟩ | ⟨v, rfl⟩ <;>
          simp [Sample.get_binary_size] <;> omega
      have hrest_le : rest.length ≤ fuel := by
        simp only [List.length_cons] at hlen hconsume
        omega
      simp only [decodeLoop, hok, ih rest hrest_le hmod]
    · simp only [decodeLoop, herr]

/-- Claim C5, amended: a data size `S` not divisible by the frame byte size
makes the import fail with an I/O error (the whole-frame prefix is NOT
returned; the read of the partial frame hits the end of the in-memory
buffer and the error propagates out of the import). Stated for every
verified-tag stream declaring format 1, a decodable bit width (8 or 16), a
nonzero channel count, and exactly `S` buffered data bytes. -/
theorem c5_partial_frame_io_error (csz fsz ch rate br ba bps S : Nat)
    (payload : List Nat) (hch1 : 1 ≤ ch) (hch2 : ch < 65536)
    (hbps : bps = 8 ∨ bps = 16) (hS : S < 4294967296)
    (hpay : payload.length = S) (hindiv : S % (ch * (bps / 8)) ≠ 0) :
    PCM.import_wave_file ([82, 73, 70, 70] ++ u32le csz ++
      [87, 65, 86, 69] ++ [102, 109, 116, 32] ++ u32le fsz ++ u16le 1 ++
      u16le ch ++ u32le rate ++ u32le br ++ u16le ba ++ u16le bps ++
      ([100, 97, 116, 97] ++ u32le S ++ payload)) = .err .IoError := by
  rw [import_parse]
  have hbps65536 : bps % 65536 = bps := by omega
  have hch65536 : ch % 65536 = ch := by omega
  have hfmt1 : (1 : Nat) % 65536 = 1 := by norm_num
  obtain ⟨st, hres, hstok, hsz⟩ :
      ∃ st, Sample.from_wave_format_bps 1 bps = .ok st ∧
        ((∃ v, st = .Unsigned8bits v) ∨ (∃ v, st = .Signed16bits v)) ∧
        st.get_binary_size / 8 = bps / 8 := by
    rcases hbps with rfl | rfl
    · exact ⟨.Unsigned8bits 0, rfl, .inl ⟨0, rfl⟩, by decide⟩
    · exact ⟨.Signed16bits 0, rfl, .inr ⟨0, rfl⟩, by decide⟩
  have hrb : readBytes S payload = some (payload, payload.drop S) := by
    unfold readBytes
    rw [if_neg (by omega : ¬ payload.length < S)]
    rw [← hpay, List.take_length]
  have hdec : decodeLoop st ch payload.length payload = .ioErr :=
    decodeLoop_indivisible st hstok ch hch1 payload.length payload
      (le_refl _) (by rw [hpay, hsz]; exact hindiv)
  simp only [hfmt1, hbps65536, hch65536, hres, ne_eq, not_true_eq_false,
    if_false, List.append_assoc, check_magic_self, PCM.importData,
    readU32le_u32le, Nat.mod_eq_of_lt hS, hrb,
    if_neg (show ¬ bps / 8 = 0 by rcases hbps with rfl | rfl <;> decide),
    if_neg (show ¬ ch = 0 by omega), hdec]

/-- Witness for the amended C5 theorem: 16-bit mono, data size 3. -/
theorem c5_partial_frame_io_error_witness :
    PCM.import_wave_file ([82, 73, 70, 70] ++ u32le 39 ++ [87, 65, 86, 69] ++
      [102, 109, 116, 32] ++ u32le 16 ++ u16le 1 ++ u16le 1 ++ u32le 8000 ++
      u32le 16000 ++ u16le 2 ++ u16le 16 ++
      ([100, 97, 116, 97] ++ u32le 3 ++ [1, 2, 3])) = .err .IoError :=
  c5_partial_frame_io_error 39 16 1 8000 16000 2 16 3 [1, 2, 3] (by decide)
    (by decide) (.inr rfl) (by decide) (by decide) (by decide)

/-- Every successful `export_wave_file` run produces exactly: the fixed
header, then the `fact` chunk when the best-fit format is not 1, then the
`data` tag, the data size, and the raw sample bytes. -/
theorem export_ok_shape (p : PCM)
    (h : (PCM.export_wave_file p).status = .ok) :
    (PCM.export_wave_file p).out =
      waveHeader p ++
        (if p.parameters.sample_type.get_best_wave_format ≠ 1 then
          [102, 97, 99, 116] ++ u32le 4 ++ u32le p.frames.length
        else []) ++
        [100, 97, 116, 97] ++ u32le p.get_audio_size ++
        (writeFrames p.frames).1 := by
  by_cases h1 : 4294967295 < p.get_audio_size
  · unfold PCM.export_wave_file at h
    rw [if_pos h1] at h
    exact absurd h (by simp)
  by_cases h2 : p.parameters.sample_type.get_wave_format_chunk_extra_size ≠ 0
  · unfold PCM.export_wave_file at h
    rw [if_neg h1, if_pos h2] at h
    exact absurd h (by simp)
  by_cases h3 : p.parameters.sample_type.get_best_wave_format ≠ 1
  · by_cases h4 : 4294967295 < p.frames.length
    · unfold PCM.export_wave_file at h
      rw [if_neg h1, if_neg h2, if_pos h3, if_pos h4] at h
      exact absurd h (by simp)
    · unfold PCM.export_wave_file at h ⊢
      rw [if_neg h1, if_neg h2, if_pos h3, if_neg h4] at h ⊢
      unfold exportTail at h ⊢
      rcases hw : writeFrames p.frames with ⟨raw, ok⟩
      cases ok
      · rw [hw] at h; simp at h
      · simp [h3, List.append_assoc]
  · unfold PCM.export_wave_file at h ⊢
    rw [if_neg h1, if_neg h2, if_neg h3] at h ⊢
    unfold exportTail at h ⊢
    rcases hw : writeFrames p.frames with ⟨raw, ok⟩
    cases ok
    · rw [hw] at h; simp at h
    · simp [h3, List.append_assoc]

/-- Claim C7 (confirmed): a successful export's output consists of the
header, then a `fact` chunk (tag, u32 interior size 4, u32 frame count)
exactly when the best-fit format code differs from 1, then the `data` tag,
size and payload; and the best-fit code is 1 exactly for the four
integer-PCM variants (tags 0-3: Unsigned8bits, Signed16bits, Signed24bits,
Signed32bits), so those never get a fact chunk. -/
theorem c7_fact_chunk_iff (p : PCM)
    (h : (PCM.export_wave_file p).status = .ok) :
    (PCM.export_wave_file p).out =
      waveHeader p ++
        (if p.parameters.sample_type.get_best_wave_format ≠ 1 then
          [102, 97, 99, 116] ++ u32le 4 ++ u32le p.frames.length
        else []) ++
        [100, 97, 116, 97] ++ u32le p.get_audio_size ++
        (writeFrames p.frames).1 ∧
      (p.parameters.sample_type.get_best_wave_format = 1 ↔
        p.parameters.sample_type.tag = 0 ∨ p.parameters.sample_type.tag = 1 ∨
          p.parameters.sample_type.tag = 2 ∨
          p.parameters.sample_type.tag = 3) := by
  refine ⟨export_ok_shape p h, ?_⟩
  rcases p.parameters.sample_type <;>
    simp [Sample.get_best_wave_format, Sample.tag]

/-- Witness for C7 at a Float PCM with no frames (fact chunk present). -/
theorem c7_fact_chunk_iff_witness :
    (PCM.export_wave_file ⟨⟨8000, 1, .Float⟩, none, []⟩).out =
      waveHeader ⟨⟨8000, 1, .Float⟩, none, []⟩ ++
        (if (Sample.Float).get_best_wave_format ≠ 1 then
          [102, 97, 99, 116] ++ u32le 4 ++ u32le ([] : List Frame).length
        else []) ++
        [100, 97, 116, 97] ++
        u32le (PCM.get_audio_size ⟨⟨8000, 1, .Float⟩, none, []⟩) ++
        (writeFrames []).1 ∧
      ((Sample.Float).get_best_wave_format = 1 ↔
        (Sample.Float).tag = 0 ∨ (Sample.Float).tag = 1 ∨
          (Sample.Float).tag = 2 ∨ (Sample.Float).tag = 3) :=
  c7_fact_chunk_iff ⟨⟨8000, 1, .Float⟩, none, []⟩ (by decide)

/-- Value of a u32 little-endian field at the head of a byte list. -/
def fieldU32 : List Nat → Nat
  | b0 :: b1 :: b2 :: b3 :: _ => b0 + 256 * b1 + 65536 * b2 + 16777216 * b3
  | _ => 0

/-- Value of a u16 little-endian field at the head of a byte list. -/
def fieldU16 : List Nat → Nat
  | b0 :: b1 :: _ => b0 + 256 * b1
  | _ => 0

theorem fieldU32_u32le (v : Nat) (r : List Nat) :
    fieldU32 (u32le v ++ r) = v % 4294967296 := by
  simp only [u32le, List.cons_append, List.nil_append, fieldU32]
  omega

theorem fieldU16_u16le (v : Nat) (r : List Nat) :
    fieldU16 (u16le v ++ r) = v % 65536 := by
  simp only [u16le, List.cons_append, List.nil_append, fieldU16]
  omega

theorem drop28_shape (r1 r2 bf ch rt br ba bs : Nat) (tail : List Nat) :
    ([82, 73, 70, 70] ++ (u32le r1 ++ ([87, 65, 86, 69] ++
      ([102, 109, 116, 32] ++ (u32le r2 ++ (u16le bf ++ (u16le ch ++
      (u32le rt ++ (u32le br ++ (u16le ba ++ (u16le bs ++
      tail))))))))))).drop 28 =
      u32le br ++ (u16le ba ++ (u16le bs ++ tail)) := rfl

theorem drop32_shape (r1 r2 bf ch rt br ba bs : Nat) (tail : List Nat) :
    ([82, 73, 70, 70] ++ (u32le r1 ++ ([87, 65, 86, 69] ++
      ([102, 109, 116, 32] ++ (u32le r2 ++ (u16le bf ++ (u16le ch ++
      (u32le rt ++ (u32le br ++ (u16le ba ++ (u16le bs ++
      tail))))))))))).drop 32 =
      u16le ba ++ (u16le bs ++ tail) := rfl

/-- PCM whose byte-rate product overflows u32:
rate 2^31, 2 channels, 16 bits. -/
def overflowPcm : PCM :=
  ⟨⟨2147483648, 2, .Signed16bits 0⟩, none,
    [⟨[.Signed16bits 0, .Signed16bits 0]⟩]⟩

/-- Claim C8, counterexample: for rate 2^31, 2 channels, 16-bit samples the
export succeeds but the byte-rate field at offset 28 holds 0, not the
product 2^31 × 2 × 2 = 2^33 (the u32 multiplication wraps). -/
theorem c8_counterexample :
    (PCM.export_wave_file overflowPcm).status = .ok ∧
      fieldU32 ((PCM.export_wave_file overflowPcm).out.drop 28) = 0 ∧
      overflowPcm.parameters.sample_rate *
        overflowPcm.parameters.nb_channels *
        (overflowPcm.parameters.sample_type.get_binary_size / 8) =
        8589934592 ∧
      fieldU32 ((PCM.export_wave_file overflowPcm).out.drop 28) ≠
        overflowPcm.parameters.sample_rate *
          overflowPcm.parameters.nb_channels *
          (overflowPcm.parameters.sample_type.get_binary_size / 8) := by
  decide

/-- Claim C8, amended: in every successfully exported header the byte-rate
field equals `sample_rate × nb_channels × (bits_per_sample/8)` reduced
modulo 2^32 and the block-align field equals
`nb_channels × (bits_per_sample/8)` reduced modulo 2^16 (Rust release-mode
wrapping multiplication); these equal the exact products whenever the
products fit the fields. -/
theorem c8_header_rate_fields (p : PCM)
    (h : (PCM.export_wave_file p).status = .ok) :
    fieldU32 ((PCM.export_wave_file p).out.drop 28) =
      (p.parameters.sample_rate * p.parameters.nb_channels *
        (p.parameters.sample_type.get_binary_size / 8)) % 4294967296 ∧
    fieldU16 ((PCM.export_wave_file p).out.drop 32) =
      (p.parameters.nb_channels *
        (p.parameters.sample_type.get_binary_size / 8)) % 65536 := by
  rw [export_ok_shape p h]
  simp only [waveHeader, List.append_assoc]
  rw [drop28_shape, drop32_shape, fieldU32_u32le, fieldU16_u16le]
  exact ⟨rfl, rfl⟩

/-- Witness for the amended C8 theorem at the mono 8-bit scenario. -/
theorem c8_header_rate_fields_witness :
    fieldU32 ((PCM.export_wave_file
        ⟨⟨8000, 1, .Unsigned8bits 0⟩, none, [⟨[.Unsigned8bits 7]⟩]⟩).out.drop
        28) = (8000 * 1 * ((Sample.Unsigned8bits 0).get_binary_size / 8)) %
        4294967296 ∧
    fieldU16 ((PCM.export_wave_file
        ⟨⟨8000, 1, .Unsigned8bits 0⟩, none, [⟨[.Unsigned8bits 7]⟩]⟩).out.drop
        32) = (1 * ((Sample.Unsigned8bits 0).get_binary_size / 8)) % 65536 :=
  c8_header_rate_fields ⟨⟨8000, 1, .Unsigned8bits 0⟩, none,
    [⟨[.Unsigned8bits 7]⟩]⟩ (by decide)

/-- An `exportTail` call only ever finishes ok or panics. -/
theorem exportTail_status (pre : List Nat) (p : PCM) :
    (exportTail pre p).status = .ok ∨ (exportTail pre p).status = .panic := by
  unfold exportTail
  rcases writeFrames p.frames with ⟨raw, ok⟩
  cases ok <;> simp

/-- Claim C6 (confirmed): with the data-model invariant relating the frames
to the parameters, `export_wave_file` fails with `TooMuchData` — having
written nothing — exactly when `frame_count × nb_channels × (bits/8)`
exceeds u32::MAX; when the size fits, `TooMuchData` is never returned;
`TooManyFrames` is returned exactly on the fact-chunk path (extra size 0,
best format ≠ 1) when the frame count exceeds u32::MAX, and never
otherwise. -/
theorem c6_overflow_errors (p : PCM) (hinv : p.framesWF) :
    (4294967295 < p.frames.length * (p.parameters.nb_channels *
        (p.parameters.sample_type.get_binary_size / 8)) →
      PCM.export_wave_file p =
        ⟨[], .err (.TooMuchData (p.frames.length *
          (p.parameters.nb_channels *
            (p.parameters.sample_type.get_binary_size / 8))))⟩) ∧
    (p.frames.length * (p.parameters.nb_channels *
        (p.parameters.sample_type.get_binary_size / 8)) ≤ 4294967295 →
      (∀ n, (PCM.export_wave_file p).status ≠ .err (.TooMuchData n)) ∧
      (p.parameters.sample_type.get_wave_format_chunk_extra_size = 0 →
        p.parameters.sample_type.get_best_wave_format ≠ 1 →
        4294967295 < p.frames.length →
        (PCM.export_wave_file p).status =
          .err (.TooManyFrames p.frames.length)) ∧
      ((p.parameters.sample_type.get_best_wave_format = 1 ∨
          p.frames.length ≤ 4294967295) →
        ∀ n, (PCM.export_wave_file p).status ≠
          .err (.TooManyFrames n))) := by
  have hA := audio_size_formula p hinv
  constructor
  · intro hbig
    have hbig' : 4294967295 < p.get_audio_size := by rw [hA]; exact hbig
    unfold PCM.export_wave_file
    rw [if_pos hbig', hA]
  · intro hfit
    have hfit' : ¬ 4294967295 < p.get_audio_size := by rw [hA]; omega
    refine ⟨?_, ?_, ?_⟩
    · intro n h
      unfold PCM.export_wave_file at h
      rw [if_neg hfit'] at h
      split_ifs at h with h2 h3 h4
      · simp at h
      · unfold exportTail at h
        split at h <;> simp at h
      · unfold exportTail at h
        split at h <;> simp at h
    · intro hx0 hb1 hbig
      unfold PCM.export_wave_file
      rw [if_neg hfit', if_neg (by simp [hx0]), if_pos hb1, if_pos hbig]
    · intro hcase n h
      unfold PCM.export_wave_file at h
      rw [if_neg hfit'] at h
      split_ifs at h with h2 h3 h4
      · rcases hcase with hcase | hcase
        · exact h3 hcase
        · omega
      · unfold exportTail at h
        split at h <;> simp at h
      · unfold exportTail at h
        split at h <;> simp at h

/-- Witness for C6 at the mono 8-bit scenario (sizes fit, no size error). -/
theorem c6_overflow_errors_witness :
    (PCM.export_wave_file
        ⟨⟨8000, 1, .Unsigned8bits 0⟩, none, [⟨[.Unsigned8bits 9]⟩]⟩).status ≠
      .err (.TooMuchData 0) :=
  ((c6_overflow_errors
    ⟨⟨8000, 1, .Unsigned8bits 0⟩, none, [⟨[.Unsigned8bits 9]⟩]⟩
    (by simp [PCM.framesWF, Sample.tag])).2 (by decide)).1 0

/-- A successfully decoded sample is of the stream's variant. -/
theorem readSample_ok_tag {st s : Sample} {data rest : List Nat}
    (h : readSample st data = .ok s rest) : s.tag = st.tag := by
  cases st <;> rcases data with _ | ⟨b0, _ | ⟨b1, d⟩⟩ <;>
    simp [readSample, readByte, readU16le] at h <;>
      rcases h with ⟨rfl, rfl⟩ <;> rfl

/-- A successful channel-loop run returns exactly `n` samples, all of the
stream's variant. -/
theorem readChannels_ok_inv {st : Sample} :
    ∀ {n : Nat} {data : List Nat} {ss : List Sample} {rest : List Nat},
      readChannels st n data = .ok ss rest →
      ss.length = n ∧ ∀ s ∈ ss, s.tag = st.tag := by
  intro n
  induction n with
  | zero =>
    intro data ss rest h
    simp only [readChannels] at h
    rcases h with ⟨rfl, rfl⟩
    exact ⟨rfl, by simp⟩
  | succ n ih =>
    intro data ss rest h
    simp only [readChannels] at h
    rcases hr : readSample st data with ⟨s1, r1⟩ | _ | _ <;> rw [hr] at h <;>
      try simp at h
    rcases hc : readChannels st n r1 with ⟨ss2, r2⟩ | _ | _ <;> rw [hc] at h <;>
      try simp at h
    rcases h with ⟨rfl, rfl⟩
    obtain ⟨hlen, htags⟩ := ih hc
    refine ⟨by simp [hlen], ?_⟩
    intro s hs
    rcases List.mem_cons.mp hs with rfl | hs
    · exact readSample_ok_tag hr
    · exact htags s hs

/-- Frames produced by the decoding loop all have `ch` samples of the
stream's variant. -/
theorem decodeLoop_ok_inv {st : Sample} {ch : Nat} :
    ∀ {fuel : Nat} {data : List Nat} {frames : List Frame},
      decodeLoop st ch fuel data = .ok frames →
      ∀ f ∈ frames, f.samples.length = ch ∧
        ∀ s ∈ f.samples, s.tag = st.tag := by
  intro fuel
  induction fuel with
  | zero =>
    intro data frames h
    rcases data with _ | ⟨b, d⟩
    · simp only [decodeLoop] at h
      injection h with h
      subst h
      simp
    · simp only [decodeLoop] at h
      exact absurd h (by simp)
  | succ fuel ih =>
    intro data frames h
    rcases data with _ | ⟨b, d⟩
    · simp only [decodeLoop] at h
      injection h with h
      subst h
      simp
    · simp only [decodeLoop] at h
      rcases hr : readChannels st ch (b :: d) with ⟨ss, rest⟩ | _ | _ <;>
        rw [hr] at h <;> try simp at h
      rcases hd : decodeLoop st ch fuel rest with fr2 | _ | _ | _ <;>
        rw [hd] at h <;> try simp at h
      subst h
      intro f hf
      rcases List.mem_cons.mp hf with rfl | hf
      · exact readChannels_ok_inv hr
      · exact ih hd f hf

/-- A PCM built by the data phase of the import satisfies the data-model
invariants. -/
theorem importData_ok_inv {st : Sample} {ch bps rate : Nat} {s : List Nat}
    {p : PCM} (h : PCM.importData st ch bps rate s = .ok p) :
    (∀ f ∈ p.frames, f.samples.length = p.parameters.nb_channels ∧
      ∀ smp ∈ f.samples, smp.tag = p.parameters.sample_type.tag) ∧
    p.loop_info = none := by
  unfold PCM.importData at h
  repeat' split at h
  all_goals try simp at h
  rename_i frames heq
  subst h
  exact ⟨fun f hf => decodeLoop_ok_inv heq f hf, rfl⟩

/-- Claim C9 (confirmed): every PCM successfully returned by
`import_wave_file` satisfies the data-model invariants: each frame has
exactly `nb_channels` samples, every sample is the same variant as
`parameters.sample_type`, and `loop_info` is `None`. -/
theorem c9_import_invariants (s : List Nat) (p : PCM)
    (h : PCM.import_wave_file s = .ok p) :
    (∀ f ∈ p.frames, f.samples.length = p.parameters.nb_channels ∧
      ∀ smp ∈ f.samples, smp.tag = p.parameters.sample_type.tag) ∧
    p.loop_info = none := by
  unfold PCM.import_wave_file at h
  repeat' split at h
  all_goals try simp at h
  exact importData_ok_inv h

/-- A valid mono 8-bit wave stream with data bytes [10, 20, 30]. -/
def c9Bytes : List Nat :=
  [82, 73, 70, 70] ++ u32le 35 ++ [87, 65, 86, 69] ++ [102, 109, 116, 32] ++
    u32le 16 ++ u16le 1 ++ u16le 1 ++ u32le 8000 ++ u32le 8000 ++ u16le 1 ++
    u16le 8 ++ [100, 97, 116, 97] ++ u32le 3 ++ [10, 20, 30]

/-- The PCM that importing `c9Bytes` yields. -/
def c9Pcm : PCM :=
  ⟨⟨8000, 1, .Unsigned8bits 0⟩, none,
    [⟨[.Unsigned8bits 10]⟩, ⟨[.Unsigned8bits 20]⟩, ⟨[.Unsigned8bits 30]⟩]⟩

/-- Witness for C9 on a concrete successful import. -/
theorem c9_import_invariants_witness :
    (∀ f ∈ c9Pcm.frames, f.samples.length = c9Pcm.parameters.nb_channels ∧
      ∀ smp ∈ f.samples, smp.tag = c9Pcm.parameters.sample_type.tag) ∧
    c9Pcm.loop_info = none :=
  c9_import_invariants c9Bytes c9Pcm (by decide)

/-- PCM with 2^32 one-byte frames: its audio size exceeds the u32 field. -/
def hugePcm : PCM :=
  ⟨⟨8000, 1, .Unsigned8bits 0⟩, none,
    List.replicate 4294967296 ⟨[.Unsigned8bits 0]⟩⟩

theorem pcm_replicate_audio (pa : PCMParameters)
    (li : Option (List LoopInfo)) (n : Nat) (f : Frame) :
    (⟨pa, li, List.replicate n f⟩ : PCM).get_audio_size =
      n * f.get_audio_size := by
  cases n with
  | zero => simp [PCM.get_audio_size]
  | succ n => simp [PCM.get_audio_size, List.replicate_succ]

theorem hugePcm_audio_size : hugePcm.get_audio_size = 4294967296 := by
  unfold hugePcm
  rw [pcm_replicate_audio,
    show Frame.get_audio_size ⟨[.Unsigned8bits 0]⟩ = 1 from rfl,
    Nat.mul_one]

/-- Claim C1, counterexample: the claim quantifies over every frame count,
but for 2^32 mono 8-bit frames `export_wave_file` fails with `TooMuchData`
before writing anything, so export-then-import cannot return Ok (importing
the empty output fails at the first tag read). -/
theorem c1_counterexample :
    PCM.export_wave_file hugePcm =
      ⟨[], .err (.TooMuchData 4294967296)⟩ ∧
    PCM.import_wave_file (PCM.export_wave_file hugePcm).out =
      .err .IoError := by
  have hexp : PCM.export_wave_file hugePcm =
      ⟨[], .err (.TooMuchData 4294967296)⟩ := by
    unfold PCM.export_wave_file
    rw [hugePcm_audio_size, if_pos (by norm_num)]
  exact ⟨hexp, by rw [hexp]; rfl⟩

/-- Claim C1, amended: the round-trip holds for every PCM of the claimed
form whose audio byte size also fits the u32 `data` size field (the claim's
"any frame count" weakened only by this overflow bound, which the
counterexample forces): export succeeds, and importing the output yields Ok
of a PCM with the same sample rate, channel count and sample variant, the
identical frames in order, and no loop info. -/
theorem c1_roundtrip (p : PCM)
    (hvar : (∃ v, p.parameters.sample_type = .Unsigned8bits v) ∨
      (∃ v, p.parameters.sample_type = .Signed16bits v))
    (hch1 : 1 ≤ p.parameters.nb_channels)
    (hch2 : p.parameters.nb_channels < 65536)
    (hrate : p.parameters.sample_rate < 4294967296)
    (hframes : ∀ f ∈ p.frames,
      f.samples.length = p.parameters.nb_channels ∧
      ∀ s ∈ f.samples, sampleCompat p.parameters.sample_type s)
    (hsize : p.get_audio_size ≤ 4294967295) :
    (PCM.export_wave_file p).status = .ok ∧
    ∃ q, PCM.import_wave_file (PCM.export_wave_file p).out = .ok q ∧
      q.parameters.sample_rate = p.parameters.sample_rate ∧
      q.parameters.nb_channels = p.parameters.nb_channels ∧
      q.parameters.sample_type.tag = p.parameters.sample_type.tag ∧
      q.frames = p.frames ∧
      q.loop_info = none := by
  obtain ⟨st0, hres, hbs0, htag0, hbest, hextra, hb1, hcompat⟩ :
      ∃ st0, Sample.from_wave_format_bps 1
          p.parameters.sample_type.get_binary_size = .ok st0 ∧
        st0.get_binary_size = p.parameters.sample_type.get_binary_size ∧
        st0.tag = p.parameters.sample_type.tag ∧
        p.parameters.sample_type.get_best_wave_format = 1 ∧
        p.parameters.sample_type.get_wave_format_chunk_extra_size = 0 ∧
        1 ≤ p.parameters.sample_type.get_binary_size / 8 ∧
        (∀ s, sampleCompat p.parameters.sample_type s →
          sampleCompat st0 s) := by
    rcases hvar with ⟨v, hv⟩ | ⟨v, hv⟩
    · refine ⟨.Unsigned8bits 0, ?_, ?_, ?_, ?_, ?_, ?_, ?_⟩ <;> rw [hv]
      · rfl
      · rfl
      · rfl
      · rfl
      · rfl
      · norm_num [Sample.get_binary_size]
      · intro s hs
        revert hs
        cases s <;> simp [sampleCompat]
    · refine ⟨.Signed16bits 0, ?_, ?_, ?_, ?_, ?_, ?_, ?_⟩ <;> rw [hv]
      · rfl
      · rfl
      · rfl
      · rfl
      · rfl
      · norm_num [Sample.get_binary_size]
      · intro s hs
        revert hs
        cases s <;> simp [sampleCompat]
  have hb0' : 1 ≤ st0.get_binary_size / 8 := by rw [hbs0]; exact hb1
  obtain ⟨raw, hwf, hlen, hdec⟩ :=
    frames_codec st0 p.parameters.nb_channels hch1 hb0' p.frames
      (fun f hf => ⟨(hframes f hf).1,
        fun s hs => hcompat s ((hframes f hf).2 s hs)⟩)
  have hWF : p.framesWF := fun f hf => ⟨(hframes f hf).1,
    fun s hs => sampleCompat_tag ((hframes f hf).2 s hs)⟩
  have haudio := audio_size_formula p hWF
  have hlenraw : raw.length = p.get_audio_size := by
    rw [hlen, hbs0, haudio]
  have hfuel : p.frames.length ≤ raw.length := by
    rw [hlen]
    have h1 : 1 ≤ p.parameters.nb_channels * (st0.get_binary_size / 8) := by
      have := Nat.mul_le_mul hch1 hb0'
      simpa using this
    calc p.frames.length = p.frames.length * 1 := (Nat.mul_one _).symm
      _ ≤ p.frames.length *
          (p.parameters.nb_channels * (st0.get_binary_size / 8)) :=
        Nat.mul_le_mul_left _ h1
  have hexp : PCM.export_wave_file p =
      ⟨[82, 73, 70, 70] ++ u32le (riffInterior p) ++ [87, 65, 86, 69] ++
        [102, 109, 116, 32] ++
        u32le (16 +
          p.parameters.sample_type.get_wave_format_chunk_extra_size) ++
        u16le p.parameters.sample_type.get_best_wave_format ++
        u16le p.parameters.nb_channels ++
        u32le p.parameters.sample_rate ++
        u32le (p.parameters.sample_rate * p.parameters.nb_channels *
          (p.parameters.sample_type.get_binary_size / 8)) ++
        u16le (p.parameters.nb_channels *
          (p.parameters.sample_type.get_binary_size / 8)) ++
        u16le p.parameters.sample_type.get_binary_size ++
        ([100, 97, 116, 97] ++ u32le p.get_audio_size ++ raw), .ok⟩ := by
    unfold PCM.export_wave_file exportTail
    rw [if_neg (by omega : ¬ 4294967295 < p.get_audio_size),
      if_neg (show
        ¬ p.parameters.sample_type.get_wave_format_chunk_extra_size ≠ 0 by
          simp [hextra]),
      if_neg (show
        ¬ p.parameters.sample_type.get_best_wave_format ≠ 1 by
          simp [hbest]),
      hwf]
    simp [waveHeader, List.append_assoc]
  have hb65536 : p.parameters.sample_type.get_binary_size % 65536 =
      p.parameters.sample_type.get_binary_size := by
    rcases hvar with ⟨v, hv⟩ | ⟨v, hv⟩ <;> rw [hv] <;>
      simp [Sample.get_binary_size]
  have hfmt1 : p.parameters.sample_type.get_best_wave_format % 65536 = 1 := by
    rw [hbest]
  have hrb : readBytes p.get_audio_size raw =
      some (raw, raw.drop p.get_audio_size) := by
    unfold readBytes
    rw [if_neg (by omega : ¬ raw.length < p.get_audio_size)]
    rw [← hlenraw, List.take_length]
  have hdecEq : decodeLoop st0 p.parameters.nb_channels raw.length raw =
      .ok p.frames := hdec raw.length hfuel
  refine ⟨by rw [hexp], ⟨⟨⟨p.parameters.sample_rate,
    p.parameters.nb_channels, st0⟩, none, p.frames⟩, ?_, rfl, rfl, htag0,
    rfl, rfl⟩⟩
  rw [hexp]
  rw [show (⟨_, WStatus.ok⟩ : WResult).out = _ from rfl, import_parse]
  simp only [hfmt1, hb65536, Nat.mod_eq_of_lt hch2, Nat.mod_eq_of_lt hrate,
    hres, ne_eq, not_true_eq_false, if_false, List.append_assoc,
    check_magic_self, PCM.importData, readU32le_u32le,
    Nat.mod_eq_of_lt (show p.get_audio_size < 4294967296 by omega), hrb,
    if_neg (show ¬ p.parameters.sample_type.get_binary_size / 8 = 0 by
      omega),
    if_neg (show ¬ p.parameters.nb_channels = 0 by omega), hdecEq]

/-- Concrete input for the round-trip witness. -/
def c1Pcm : PCM :=
  ⟨⟨8000, 1, .Unsigned8bits 0⟩, none,
    [⟨[.Unsigned8bits 10]⟩, ⟨[.Unsigned8bits 20]⟩, ⟨[.Unsigned8bits 30]⟩]⟩

/-- Witness for the amended C1 theorem on a mono 8-bit PCM. -/
theorem c1_roundtrip_witness :
    (PCM.export_wave_file c1Pcm).status = .ok ∧
    ∃ q, PCM.import_wave_file (PCM.export_wave_file c1Pcm).out = .ok q ∧
      q.parameters.sample_rate = c1Pcm.parameters.sample_rate ∧
      q.parameters.nb_channels = c1Pcm.parameters.nb_channels ∧
      q.parameters.sample_type.tag = c1Pcm.parameters.sample_type.tag ∧
      q.frames = c1Pcm.frames ∧
      q.loop_info = none :=
  c1_roundtrip c1Pcm (.inl ⟨0, rfl⟩) (by decide) (by decide) (by decide)
    (by intro f hf; fin_cases hf <;> simp [c1Pcm, sampleCompat]) (by decide)
